import Mathlib

/-!
Verification of the `async_cache_updater` package: a shallow embedding of
its key codec (`decorators.get_cache_key`, `utils.hash_key`), store adapter
(`cache.py`), refresh policy (`decorators.should_refresh`), memoization
engine (`decorators.cached_func` / `run_and_cache` / `save_to_cache`),
bucket range enumeration (`utils.find_bucket_ranges`) and the keyword
argument cleanup in `decorators.get_call_args`, together with theorems
settling the specification claims about them.

Modelling conventions:
- Python values that can appear as user arguments or cached payloads are
  the inductive `PyVal`; Python `None` is `PyVal.pyNone`.
- Aware datetimes and unix times are modelled as `Int` (microseconds since
  the epoch); only their ordering and successor structure matter to the
  claims.
- `pickle.dumps`/`pickle.loads` round-trip every payload, so the store is
  modelled as holding `PyVal` directly; a missing key deserializes to
  Python `None`, exactly as `cache._deserialize(None)` returns `None`.
-/

/-- Python values used as call arguments and cached payloads. -/
inductive PyVal where
  | pyNone : PyVal
  | pyInt : Int → PyVal
  | pyStr : String → PyVal
  | pyDT : Int → PyVal
  deriving DecidableEq, Repr

/-- Python `str()` rendering of a `PyVal`, as used in `get_cache_key`. -/
def pyStrOf : PyVal → String
  | PyVal.pyNone => "None"
  | PyVal.pyInt n => toString n
  | PyVal.pyStr s => s
  | PyVal.pyDT n => "datetime(" ++ toString n ++ ")"

/-! ### SHA-1 (`hashlib.sha1(value.encode("utf8")).hexdigest()`) -/

/-- UTF-8 encoding of a single character, as a list of byte values. -/
def utf8EncodeCharNat (c : Char) : List Nat :=
  let n := c.toNat
  if n < 128 then [n]
  else if n < 2048 then [192 + n / 64, 128 + n % 64]
  else if n < 65536 then [224 + n / 4096, 128 + (n / 64) % 64, 128 + n % 64]
  else [240 + n / 262144, 128 + (n / 4096) % 64, 128 + (n / 64) % 64,
    128 + n % 64]

/-- UTF-8 byte encoding of a string (Python `value.encode("utf8")`). -/
def strBytes (s : String) : List Nat :=
  s.data.foldr (fun c acc => utf8EncodeCharNat c ++ acc) []

/-- Rotate a 32-bit word left by `n` bits. -/
def rotl (n x : Nat) : Nat :=
  ((x <<< n) ||| (x >>> (32 - n))) % 4294967296

/-- SHA-1 round function `f_t`. -/
def sha1F (t b c d : Nat) : Nat :=
  if t < 20 then (b &&& c) ||| ((b ^^^ 4294967295) &&& d)
  else if t < 40 then (b ^^^ c) ^^^ d
  else if t < 60 then ((b &&& c) ||| (b &&& d)) ||| (c &&& d)
  else (b ^^^ c) ^^^ d

/-- SHA-1 round constant `K_t`. -/
def sha1K (t : Nat) : Nat :=
  if t < 20 then 1518500249
  else if t < 40 then 1859775393
  else if t < 60 then 2400959708
  else 3395469782

/-- Group bytes into big-endian 32-bit words. -/
def bytesToWords : List Nat → List Nat
  | b0 :: b1 :: b2 :: b3 :: rest =>
      (((b0 * 256 + b1) * 256 + b2) * 256 + b3) :: bytesToWords rest
  | _ => []

/-- Extend the 16 block words to the 80-word message schedule. -/
def sha1ExtendGo : Nat → List Nat → List Nat
  | 0, ws => ws
  | n + 1, ws =>
      let l := ws.length
      let w3 := ws.getD (l - 3) 0
      let w8 := ws.getD (l - 8) 0
      let w14 := ws.getD (l - 14) 0
      let w16 := ws.getD (l - 16) 0
      sha1ExtendGo n (ws ++ [rotl 1 (((w3 ^^^ w8) ^^^ w14) ^^^ w16)])

/-- The 80 compression rounds over the message schedule. -/
def sha1Compress : Nat → List Nat → Nat × Nat × Nat × Nat × Nat →
    Nat × Nat × Nat × Nat × Nat
  | _, [], st => st
  | t, w :: ws, (a, b, c, d, e) =>
      let temp := (rotl 5 a + sha1F t b c d + e + sha1K t + w) % 4294967296
      sha1Compress (t + 1) ws (temp, a, rotl 30 b, c, d)

/-- Process `n` 64-byte blocks, folding each into the hash state. -/
def sha1BlocksGo : Nat → List Nat → Nat × Nat × Nat × Nat × Nat →
    Nat × Nat × Nat × Nat × Nat
  | 0, _, st => st
  | n + 1, bytes, (h0, h1, h2, h3, h4) =>
      let ws := sha1ExtendGo 64 (bytesToWords (bytes.take 64))
      let st := sha1Compress 0 ws (h0, h1, h2, h3, h4)
      sha1BlocksGo n (bytes.drop 64)
        ((h0 + st.1) % 4294967296, (h1 + st.2.1) % 4294967296,
          (h2 + st.2.2.1) % 4294967296, (h3 + st.2.2.2.1) % 4294967296,
          (h4 + st.2.2.2.2) % 4294967296)

/-- Big-endian byte rendering of `n`, `k` bytes wide. -/
def natToBytesBE : Nat → Nat → List Nat
  | 0, _ => []
  | k + 1, n => natToBytesBE k (n / 256) ++ [n % 256]

/-- SHA-1 padding: append `0x80`, zeros to 56 mod 64, then the bit length. -/
def sha1Pad (msg : List Nat) : List Nat :=
  let len := msg.length
  msg ++ [128] ++ List.replicate ((119 - len % 64) % 64) 0 ++
    natToBytesBE 8 (len * 8)

/-- Lowercase hex digit for `n < 16`. -/
def hexDigitChar (n : Nat) : Char :=
  if n < 10 then Char.ofNat (48 + n) else Char.ofNat (87 + n)

/-- Lowercase hex rendering of `n`, `k` digits wide. -/
def natToHex : Nat → Nat → String
  | 0, _ => ""
  | k + 1, n => natToHex k (n / 16) ++ String.singleton (hexDigitChar (n % 16))

/-- SHA-1 digest of a byte list, rendered as 40 lowercase hex characters. -/
def sha1Hex (msg : List Nat) : String :=
  let padded := sha1Pad msg
  let st := sha1BlocksGo (padded.length / 64) padded
    (1732584193, 4023233417, 2562383102, 271733878, 3285377520)
  natToHex 8 st.1 ++ natToHex 8 st.2.1 ++ natToHex 8 st.2.2.1 ++
    natToHex 8 st.2.2.2.1 ++ natToHex 8 st.2.2.2.2

/-- `utils.hash_key`: lowercase-hex SHA-1 of the UTF-8 bytes of `value`. -/
def hash_key (value : String) : String :=
  sha1Hex (strBytes value)


/-! ### Key codec (`decorators.get_cache_key` and friends) -/

/-- Python `":".join(parts)`. -/
def joinColon : List String → String
  | [] => ""
  | [s] => s
  | s :: rest => s ++ ":" ++ joinColon rest

/-- The per-registration data consulted by the key codec: prefixes, the
wrapped function's identity and parameter list, the names of the timestamp
and timezone parameters, and the optional bucket rule
`(dt, tz) → label`. -/
structure KeyCfg where
  key_prefix : String
  func_module : String
  func_name : String
  func_args : List String
  timestamp_name : String
  tz_name : String
  bucket : Option (PyVal → PyVal → String)

/-- `decorators.get_cache_key`: join the `str()` renderings of the bound
arguments in declared order (skipping the timestamp and timezone names),
prepend `KEY_PREFIX:module:name`, append the bucket label when a bucket
rule is configured, and SHA-1 the result. -/
def get_cache_key (cfg : KeyCfg) (call_args : String → PyVal) : String :=
  let arglist := (cfg.func_args.filter
    (fun a => a != cfg.timestamp_name && a != cfg.tz_name)).map
      (fun a => pyStrOf (call_args a))
  let base := [cfg.key_prefix, cfg.func_module, cfg.func_name,
    joinColon arglist]
  let cache_args := match cfg.bucket with
    | none => base
    | some b =>
        base ++ [b (call_args cfg.timestamp_name) (call_args cfg.tz_name)]
  hash_key (joinColon cache_args)

/-- Modelled from the spec words: the preimage string
`"{KEY_PREFIX}:{module}:{name}:{arg1:arg2:…}[:{bucket_label}]"` where the
arguments are joined in declared parameter order excluding the timestamp
and timezone argument names, and the bucket label is appended as the final
segment exactly when a bucket rule is configured. -/
def spec_key_string (cfg : KeyCfg) (call_args : String → PyVal) : String :=
  let argjoin := joinColon ((cfg.func_args.filter
    (fun a => a != cfg.timestamp_name && a != cfg.tz_name)).map
      (fun a => pyStrOf (call_args a)))
  cfg.key_prefix ++ ":" ++ cfg.func_module ++ ":" ++ cfg.func_name ++ ":" ++
    argjoin ++
    (match cfg.bucket with
     | none => ""
     | some b =>
        ":" ++ b (call_args cfg.timestamp_name) (call_args cfg.tz_name))

/-! ### Store adapter (`cache.py`) over an abstract Redis state -/

/-- A Redis score bound: `-inf`, `+inf`, or a finite score. -/
inductive Bound where
  | ninf : Bound
  | pinf : Bound
  | fin : Int → Bound
  deriving DecidableEq

/-- Does score `s` satisfy the lower bound `lo ≤ s`? -/
def scoreGE : Bound → Int → Bool
  | Bound.ninf, _ => true
  | Bound.pinf, _ => false
  | Bound.fin l, s => decide (l ≤ s)

/-- Does score `s` satisfy the upper bound `s ≤ hi`? -/
def scoreLE : Bound → Int → Bool
  | Bound.ninf, _ => false
  | Bound.pinf, _ => true
  | Bound.fin h, s => decide (s ≤ h)

/-- The visible Redis state: scalar keys with their payloads and optional
expiry, and sorted sets (member/score lists). Cache keys live under prefix
strings distinct from index keys, so the two families are kept in separate
maps. -/
structure Store where
  kv : String → Option PyVal
  ttl : String → Option Int
  zset : String → List (String × Int)

/-- `cache.get`: `GET` then `_deserialize`; a missing key yields the
default `None`. -/
def cache_get (st : Store) (key : String) : PyVal :=
  match st.kv key with
  | none => PyVal.pyNone
  | some v => v

/-- `cache.get_many`: `MGET`, deserialize each payload, and keep only the
pairs whose deserialized value `is not None`. -/
def get_many (st : Store) (keys : List String) : List (String × PyVal) :=
  (keys.map (fun k => (k, cache_get st k))).filter
    (fun kv => kv.2 != PyVal.pyNone)

/-- `cache.set_many`: serialize each value and issue a single `MSET`.
The `timeout` parameter is accepted but never forwarded to the store, so
no expiry is placed on the written keys (`MSET` also clears any existing
expiry, per Redis `SET` semantics). -/
def set_many (st : Store) (data : List (String × PyVal))
    (timeout : Option Int) : Store :=
  data.foldl
    (fun acc kv =>
      { acc with
        kv := fun k => if k = kv.1 then some kv.2 else acc.kv k,
        ttl := fun k => if k = kv.1 then none else acc.ttl k })
    st

/-- `cache.delete_many`: `DEL` each key (payload and expiry both gone). -/
def delete_many (st : Store) (keys : List String) : Store :=
  keys.foldl
    (fun acc key =>
      { acc with
        kv := fun k => if k = key then none else acc.kv k,
        ttl := fun k => if k = key then none else acc.ttl k })
    st

/-- Redis `ZADD key {member: score}`: upsert one member. -/
def zadd (st : Store) (zkey member : String) (score : Int) : Store :=
  { st with
    zset := fun k =>
      if k = zkey then
        (st.zset zkey).filter (fun ms => ms.1 != member) ++ [(member, score)]
      else st.zset k }

/-- Redis `ZRANGEBYSCORE key lo hi`: members whose score is in range. -/
def zrangebyscore (st : Store) (zkey : String) (lo hi : Bound) :
    List String :=
  ((st.zset zkey).filter
    (fun ms => scoreGE lo ms.2 && scoreLE hi ms.2)).map Prod.fst

/-- Redis `ZREMRANGEBYSCORE key lo hi`: drop members in the score range. -/
def zremrangebyscore (st : Store) (zkey : String) (lo hi : Bound) : Store :=
  { st with
    zset := fun k =>
      if k = zkey then
        (st.zset zkey).filter
          (fun ms => !(scoreGE lo ms.2 && scoreLE hi ms.2))
      else st.zset k }

/-- `cache.update_index`: when `timeout` is truthy, prune index members
scored below `now − timeout`, then upsert `cache_key` with score `now`. -/
def update_index (st : Store) (cache_key index_key : String) (timeout : Int)
    (now : Int) : Store :=
  let st1 := if timeout ≠ 0 then
    zremrangebyscore st index_key Bound.ninf (Bound.fin (now - timeout))
  else st
  zadd st1 index_key cache_key now

/-- `cache.clear_index`: fetch the cache keys in the score range, delete
them, then remove the index entries in that range. -/
def clear_index (st : Store) (index_key : String) (before after : Bound) :
    Store :=
  let cache_keys := zrangebyscore st index_key after before
  let st1 := delete_many st cache_keys
  zremrangebyscore st1 index_key after before

/-! ### Memoization engine (`decorators.py`) -/

/-- The registration-time configuration closed over by the decorator's
inner functions, together with the two clock readings a single engine step
makes (`current_unix_time()` and `tz_now()`) and the value returned by
`default_dt()` at that instant. `bucket_range` models
`utils.get_bucket_range(bucket, dt, tz)` for the configured rule. -/
structure EngineCfg where
  key : KeyCfg
  index_prefix : String
  updated_prefix : String
  refresh_prefix : String
  timeout_refresh : Option Int
  refresh_strategy : String
  bucket_range : PyVal → PyVal → Int × Int
  default_dt : Int
  now_unix : Int
  now_dt : Int

/-- `decorators.get_index_key`: `INDEX_PREFIX:module:name`. -/
def get_index_key (cfg : EngineCfg) : String :=
  cfg.index_prefix ++ ":" ++ cfg.key.func_module ++ ":" ++ cfg.key.func_name

/-- `decorators.get_updated_key`: `UPDATED_PREFIX:{cache_key}`. -/
def get_updated_key (cfg : EngineCfg) (cache_key : String) : String :=
  cfg.updated_prefix ++ ":" ++ cache_key

/-- `decorators.get_refresh_key`: `REFRESH_PREFIX:{cache_key}`. -/
def get_refresh_key (cfg : EngineCfg) (cache_key : String) : String :=
  cfg.refresh_prefix ++ ":" ++ cache_key

/-- `decorators.set_refresh_at`: nothing when `timeout_refresh` is `None`,
otherwise the singleton `{refresh_key: now + timeout_refresh}`. -/
def set_refresh_at (cfg : EngineCfg) (cache_key : String) :
    List (String × PyVal) :=
  match cfg.timeout_refresh with
  | none => []
  | some tr =>
      [(get_refresh_key cfg cache_key, PyVal.pyInt (cfg.now_unix + tr))]

/-- `decorators.set_updated_at`: the singleton `{updated_key: tz_now()}`. -/
def set_updated_at (cfg : EngineCfg) (cache_key : String) :
    List (String × PyVal) :=
  [(get_updated_key cfg cache_key, PyVal.pyDT cfg.now_dt)]

/-- `decorators.get_refresh_at`: read the refresh key from the store. -/
def get_refresh_at (cfg : EngineCfg) (st : Store) (cache_key : String) :
    PyVal :=
  cache_get st (get_refresh_key cfg cache_key)

/-- `decorators.get_updated_at`: read the updated key from the store. -/
def get_updated_at (cfg : EngineCfg) (st : Store) (cache_key : String) :
    PyVal :=
  cache_get st (get_updated_key cfg cache_key)

/-- `decorators.save_to_cache`, parametrized over the two store write
operations (`cache.set_many` and `cache.update_index`), each of which may
fail with a Redis transport/protocol error. The `try/except` around the
write phase swallows such errors: the state reached so far is kept and the
call continues. -/
def save_to_cache_ops (cfg : EngineCfg)
    (msetOp : Store → List (String × PyVal) → Int → Except Unit Store)
    (zaddOp : Store → String → String → Int → Except Unit Store)
    (st : Store) (output : PyVal) (cache_key : String) (cache_ttl : Int) :
    Store :=
  let cache_data := (cache_key, output) ::
    (set_refresh_at cfg cache_key ++ set_updated_at cfg cache_key)
  match msetOp st cache_data cache_ttl with
  | Except.error _ => st
  | Except.ok st1 =>
      match zaddOp st1 cache_key (get_index_key cfg) cache_ttl with
      | Except.error _ => st1
      | Except.ok st2 => st2

/-- `decorators.run_and_cache` with explicit write operations: invoke the
user computation, save, and return the computed output. -/
def run_and_cache_ops (cfg : EngineCfg)
    (msetOp : Store → List (String × PyVal) → Int → Except Unit Store)
    (zaddOp : Store → String → String → Int → Except Unit Store)
    (func : (String → PyVal) → PyVal) (call_args : String → PyVal)
    (cache_key : String) (cache_ttl : Int) (st : Store) : PyVal × Store :=
  let output := func call_args
  (output, save_to_cache_ops cfg msetOp zaddOp st output cache_key cache_ttl)

/-- `decorators.save_to_cache` with the write operations that succeed:
`cache.set_many` then `cache.update_index`. -/
def save_to_cache (cfg : EngineCfg) (st : Store) (output : PyVal)
    (cache_key : String) (cache_ttl : Int) : Store :=
  save_to_cache_ops cfg
    (fun s data t => Except.ok (set_many s data (some t)))
    (fun s ck ik t => Except.ok (update_index s ck ik t cfg.now_unix))
    st output cache_key cache_ttl

/-- `decorators.run_and_cache` with succeeding writes. -/
def run_and_cache (cfg : EngineCfg) (func : (String → PyVal) → PyVal)
    (call_args : String → PyVal) (cache_key : String) (cache_ttl : Int)
    (st : Store) : PyVal × Store :=
  let output := func call_args
  (output, save_to_cache cfg st output cache_key cache_ttl)

/-! ### Refresh policy (`decorators.should_refresh`) -/

/-- Numeric reading of a stored scalar, used where the policy compares a
stored `refresh_at` (unix number) or `updated_at` (datetime) against a
clock; the engine only ever writes `pyInt`/`pyDT` under those keys. -/
def pyValTime : PyVal → Int
  | PyVal.pyInt n => n
  | PyVal.pyDT t => t
  | _ => 0

/-- The configured bucket label rule. When no bucket is configured the
source would fail on `generate_bucket_name(None, …)`; that combination
(refresh strategy `latest` with no bucket) is outside every claim, and the
model gives it the constant empty label. -/
def labelFn (cfg : EngineCfg) : PyVal → PyVal → String :=
  cfg.key.bucket.getD (fun _ _ => "")

/-- `decorators.should_refresh`. The `refresh_arg`/`updated_arg`
parameters model the `_empty` sentinel: `none` means the caller did not
supply a value (so it is fetched from the store), `some v` means it was
supplied (`v` may be Python `None`). -/
def should_refresh (cfg : EngineCfg) (st : Store)
    (call_args : String → PyVal) (cache_key : String)
    (refresh_arg updated_arg : Option PyVal) : Bool :=
  match cfg.timeout_refresh with
  | none => false
  | some _ =>
    let refresh_at := match refresh_arg with
      | none => get_refresh_at cfg st cache_key
      | some v => v
    if refresh_at ≠ PyVal.pyNone ∧ pyValTime refresh_at > cfg.now_unix then
      false
    else if cfg.refresh_strategy = "latest" then
      let dt := call_args cfg.key.timestamp_name
      let tz := call_args cfg.key.tz_name
      let current_bucket := labelFn cfg dt tz
      let latest_bucket := labelFn cfg (PyVal.pyDT cfg.default_dt) tz
      if current_bucket ≠ latest_bucket then
        let r := cfg.bucket_range dt tz
        let updated_at := match updated_arg with
          | none => get_updated_at cfg st cache_key
          | some v => v
        if r.1 > cfg.now_dt then false
        else if updated_at ≠ PyVal.pyNone ∧ pyValTime updated_at > r.2 then
          false
        else true
      else true
    else true

/-- Modelled from the spec words of claim C1: false whenever
`timeout_refresh` is null; otherwise, after filling an unknown
`refresh_at` from the store, false if `refresh_at` is non-null and greater
than now; when the strategy is `latest` and the call's bucket label
differs from the label of `default_timestamp_fn()` in the call's timezone,
additionally false if the call's bucket start is after now, or if
`updated_at` (filled from the store when unknown) is non-null and greater
than the bucket end; true in every remaining case. -/
def should_refresh_claim (cfg : EngineCfg) (st : Store)
    (call_args : String → PyVal) (cache_key : String)
    (refresh_arg updated_arg : Option PyVal) : Bool :=
  if cfg.timeout_refresh = none then false
  else
    let refresh_at := refresh_arg.getD (get_refresh_at cfg st cache_key)
    if refresh_at ≠ PyVal.pyNone ∧ pyValTime refresh_at > cfg.now_unix then
      false
    else
      let dt := call_args cfg.key.timestamp_name
      let tz := call_args cfg.key.tz_name
      if cfg.refresh_strategy = "latest" ∧
          labelFn cfg dt tz ≠ labelFn cfg (PyVal.pyDT cfg.default_dt) tz then
        let r := cfg.bucket_range dt tz
        let updated_at := updated_arg.getD (get_updated_at cfg st cache_key)
        if r.1 > cfg.now_dt then false
        else if updated_at ≠ PyVal.pyNone ∧ pyValTime updated_at > r.2 then
          false
        else true
      else true

/-- Outcome of one foreground engine step: the returned value, whether the
user computation ran in the foreground, the store state at return, and the
cache keys for which a detached background refresh was scheduled. -/
structure CallOutcome where
  result : PyVal
  computed : Bool
  store : Store
  scheduled : List String

/-- The single-call path of `decorators.cached_func` (argument
normalization already performed): unless `force_cache`, read the cache
key; a non-`None` read is a hit, returned as-is after possibly scheduling
a detached refresh; otherwise compute and store synchronously. Background
tasks are detached, so the store at return is unchanged on a hit. -/
def cached_func (cfg : EngineCfg) (func : (String → PyVal) → PyVal)
    (call_args : String → PyVal) (force_cache force_refresh : Bool)
    (cache_ttl : Int) (st : Store) : CallOutcome :=
  let cache_key := get_cache_key cfg.key call_args
  if force_cache = false ∧ cache_get st cache_key ≠ PyVal.pyNone then
    let sched := force_refresh ||
      should_refresh cfg st call_args cache_key none none
    { result := cache_get st cache_key, computed := false, store := st,
      scheduled := if sched then [cache_key] else [] }
  else
    let rc := run_and_cache cfg func call_args cache_key cache_ttl st
    { result := rc.1, computed := true, store := rc.2, scheduled := [] }

/-! ### Keyword-argument cleanup (`decorators.get_call_args`, line 170)

`[kwargs.pop(kw, None) for kw in kwargs if kw not in func_args]` iterates
the `kwargs` dict directly while popping from it. A CPython dict iterator
records the dict's size at creation and every `next()` call first compares
it against the current size, raising `RuntimeError` on mismatch — and one
further `next()` is always issued after the last yielded key. The model
walks the captured key sequence, checking the recorded size before each
step exactly as the iterator does. -/

/-- One CPython dict-iterator traversal of the cleanup comprehension:
`cur` is the current dict, `iterKeys` the keys captured at iterator
creation, `di_used` the size recorded then. -/
def pop_unknown_go (func_args : List String) (cur : List (String × PyVal)) :
    List String → Nat → Except String (List (String × PyVal))
  | [], di_used =>
      if cur.length ≠ di_used then
        Except.error "RuntimeError: dictionary changed size during iteration"
      else Except.ok cur
  | k :: rest, di_used =>
      if cur.length ≠ di_used then
        Except.error "RuntimeError: dictionary changed size during iteration"
      else if func_args.contains k then pop_unknown_go func_args cur rest di_used
      else
        pop_unknown_go func_args (cur.filter (fun kv => kv.1 != k)) rest
          di_used

/-- The kwargs-cleanup step of `decorators.get_call_args`: evaluate the
comprehension over the incoming keyword arguments, returning the cleaned
dict or the runtime error the iteration raises. -/
def get_call_args_cleanup (func_args : List String)
    (kwargs : List (String × PyVal)) : Except String (List (String × PyVal)) :=
  pop_unknown_go func_args kwargs (kwargs.map Prod.fst) kwargs.length

/-! ### Bucket range enumeration (`utils.find_bucket_ranges`)

Timestamps are `Int` microseconds. The probe results of
`find_bucket_start` and the composite `tz_delta_add(·, tz, step)` are
abstracted as functions `find_start` and `advance` — one such pair exists
per (bucket rule, timezone). The `while bucket_end < end_dt` loop is given
fuel `(end_dt − s₀) + 1`, enough whenever `advance` strictly increases
(each named rule advances by at least one bucket width). -/

/-- The `while bucket_end < end_dt` loop body of `find_bucket_ranges`:
emit `(s, advance s − 1µs)` and continue from `advance s` while the bucket
end has not reached `end_dt`. -/
def bucket_ranges_go (advance : Int → Int) (end_dt : Int) :
    Nat → Int → List (Int × Int)
  | 0, s => [(s, advance s - 1)]
  | fuel + 1, s =>
      let e := advance s - 1
      if e < end_dt then
        (s, e) :: bucket_ranges_go advance end_dt fuel (advance s)
      else [(s, e)]

/-- `utils.find_bucket_ranges`: assert `start ≤ end` (else
`AssertionError`, modelled as `none`), find the bucket containing `start`,
then enumerate buckets until one ends at or past `end`. -/
def find_bucket_ranges (find_start advance : Int → Int)
    (start_dt end_dt : Int) : Option (List (Int × Int)) :=
  if start_dt ≤ end_dt then
    let s0 := find_start start_dt
    some (bucket_ranges_go advance end_dt ((end_dt - s0).toNat + 1) s0)
  else none

/-- Consecutive ranges are contiguous: each start is the previous end plus
one microsecond. -/
def chainB : List (Int × Int) → Bool
  | (_, b) :: (c, d) :: rest => (c == b + 1) && chainB ((c, d) :: rest)
  | _ => true

/-- The store with no keys and no sorted sets. -/
def emptyStore : Store :=
  { kv := fun _ => none, ttl := fun _ => none, zset := fun _ => [] }

/-- `decorators.clear_cache(before="+inf", after="-inf")`: clear the whole
per-computation index via `cache.clear_index`. -/
def clear_cache (cfg : EngineCfg) (st : Store) (before after : Bound) :
    Store :=
  clear_index st (get_index_key cfg) before after

/-- A concrete registration: function `m.f(x)` with no bucket and the
default prefixes, used by concrete witnesses. -/
def exampleKeyCfg : KeyCfg :=
  { key_prefix := "cache_updater", func_module := "m", func_name := "f",
    func_args := ["x"], timestamp_name := "dt", tz_name := "tz",
    bucket := none }

/-- Engine configuration for `exampleKeyCfg` with refresh disabled. -/
def exampleEngineCfg : EngineCfg :=
  { key := exampleKeyCfg, index_prefix := "cache_index",
    updated_prefix := "cache_updated_time",
    refresh_prefix := "cache_refresh_time", timeout_refresh := none,
    refresh_strategy := "all", bucket_range := fun _ _ => (0, 0),
    default_dt := 0, now_unix := 100, now_dt := 100 }

/-- Bound call arguments `x = 7` (the integer). -/
def intArgs : String → PyVal :=
  fun a => if a = "x" then PyVal.pyInt 7 else PyVal.pyNone

/-- Bound call arguments `x = "7"` (the string). -/
def strArgs : String → PyVal :=
  fun a => if a = "x" then PyVal.pyStr "7" else PyVal.pyNone

/-- `exampleEngineCfg` with stale-while-revalidate enabled
(`timeout_refresh = 30`). -/
def exampleRefreshCfg : EngineCfg :=
  { exampleEngineCfg with timeout_refresh := some 30 }

/-! ### Helper lemmas -/

/-- A key with a `prefix:` prepended is never the bare key. -/
theorem prefixed_key_ne (p ck : String) : p ++ ":" ++ ck ≠ ck := by
  intro h
  have hlen := congrArg String.length h
  simp only [String.length_append] at hlen
  have : (":" : String).length = 1 := rfl
  omega

/-! ### Claims -/

/-- C5: whatever the store write operations do — including raising a
transport/protocol error on the multi-set or on the index update — the
foreground `run_and_cache` still returns the freshly computed value, and a
failed multi-set leaves the store untouched; the error is never surfaced
to the caller. -/
theorem C5_write_errors_return_value (cfg : EngineCfg)
    (msetOp : Store → List (String × PyVal) → Int → Except Unit Store)
    (zaddOp : Store → String → String → Int → Except Unit Store)
    (func : (String → PyVal) → PyVal) (call_args : String → PyVal)
    (cache_key : String) (cache_ttl : Int) (st : Store) :
    (run_and_cache_ops cfg msetOp zaddOp func call_args cache_key cache_ttl
      st).1 = func call_args ∧
    (run_and_cache_ops cfg (fun _ _ _ => Except.error ())
      (fun _ _ _ _ => Except.error ()) func call_args cache_key cache_ttl
      st).2 = st := by
  constructor
  · rfl
  · rfl

/-- C4: the kwargs-cleanup comprehension in `get_call_args` pops from the
dict it is iterating, so a call carrying any unknown keyword argument
raises `RuntimeError: dictionary changed size during iteration` instead of
silently dropping it; only calls whose keyword arguments are all known
succeed (and then nothing is dropped). Evaluated at the failing input
`func_args = ["arg"]`, `kwargs = {"unknown": 1}`. -/
theorem C4_unknown_kwargs_raise :
    get_call_args_cleanup ["arg"] [("unknown", PyVal.pyInt 1)] =
      Except.error
        "RuntimeError: dictionary changed size during iteration" ∧
    get_call_args_cleanup ["arg"] [("arg", PyVal.pyInt 1)] =
      Except.ok [("arg", PyVal.pyInt 1)] ∧
    get_call_args_cleanup ["arg"]
        [("arg", PyVal.pyInt 1), ("unknown", PyVal.pyInt 2)] =
      Except.error
        "RuntimeError: dictionary changed size during iteration" := by
  refine ⟨?_, ?_, ?_⟩ <;> rfl

/-- C1: the refresh policy `should_refresh(call_args, cache_key,
refresh_at?, updated_at?)` returns false whenever `timeout_refresh` is
null; otherwise, after filling an unknown `refresh_at` from the store, it
returns false if `refresh_at` is non-null and greater than now; when the
refresh strategy is `latest` and the call's bucket label differs from the
label of `default_timestamp_fn()` in the call's timezone, it additionally
returns false if the call's bucket start is after now, or if `updated_at`
(filled from the store when unknown) is non-null and greater than the
bucket end; in every remaining case it returns true — i.e. the source
policy coincides with the claim's policy on every input. -/
theorem C1_should_refresh_matches_claim (cfg : EngineCfg) (st : Store)
    (call_args : String → PyVal) (cache_key : String)
    (refresh_arg updated_arg : Option PyVal) :
    should_refresh cfg st call_args cache_key refresh_arg updated_arg =
      should_refresh_claim cfg st call_args cache_key refresh_arg
        updated_arg := by
  unfold should_refresh should_refresh_claim
  cases htr : cfg.timeout_refresh with
  | none => simp
  | some tr =>
    simp only [reduceCtorEq, if_neg]
    cases refresh_arg <;>
      · simp only [Option.getD_some, Option.getD_none]
        split
        · rfl
        · by_cases hl : cfg.refresh_strategy = "latest" <;>
            by_cases hd : labelFn cfg (call_args cfg.key.timestamp_name)
                (call_args cfg.key.tz_name) =
              labelFn cfg (PyVal.pyDT cfg.default_dt)
                (call_args cfg.key.tz_name) <;>
            cases updated_arg <;> simp [hl, hd]

/-- C6 counterexample: a store holding the serialized Python `None` under
key `"a"` has `"a"` present, yet `get_many(["a"])` returns an empty
mapping — its key set is not the set of present requested keys. -/
theorem C6_get_many_counterexample :
    ({ emptyStore with
        kv := fun k => if k = "a" then some PyVal.pyNone else none
      : Store }).kv "a" = some PyVal.pyNone ∧
    get_many
      { emptyStore with
        kv := fun k => if k = "a" then some PyVal.pyNone else none }
      ["a"] = [] := by
  constructor
  · rfl
  · rfl

/-- C6 (amended): for every list of keys, `get_many(keys)` returns a
mapping whose key set is exactly the subset of the requested keys that are
present in the store with a deserialized value that is not `None` (a
stored `None` is dropped like a missing key), each such key mapped to its
deserialized stored value. -/
theorem C6_get_many_present_non_none (st : Store) (keys : List String)
    (k : String) :
    ((∃ v, (k, v) ∈ get_many st keys) ↔
      (k ∈ keys ∧ ∃ v, st.kv k = some v ∧ v ≠ PyVal.pyNone)) ∧
    (∀ v, (k, v) ∈ get_many st keys →
      st.kv k = some v ∧ v ≠ PyVal.pyNone) := by
  have hmem : ∀ v, (k, v) ∈ get_many st keys ↔
      (k ∈ keys ∧ v = cache_get st k ∧ v ≠ PyVal.pyNone) := by
    intro v
    simp only [get_many, List.mem_filter, List.mem_map, bne_iff_ne, ne_eq]
    constructor
    · rintro ⟨⟨k2, hk2, heq⟩, hne⟩
      obtain ⟨rfl, rfl⟩ := Prod.mk.injEq .. ▸ heq.symm
      exact ⟨hk2, rfl, hne⟩
    · rintro ⟨hk, rfl, hne⟩
      exact ⟨⟨k, hk, rfl⟩, hne⟩
  have hget : ∀ h : cache_get st k ≠ PyVal.pyNone,
      st.kv k = some (cache_get st k) := by
    intro h
    unfold cache_get at h ⊢
    cases hh : st.kv k with
    | none => rw [hh] at h; exact absurd rfl h
    | some v => rfl
  constructor
  · constructor
    · rintro ⟨v, hv⟩
      obtain ⟨hk, rfl, hne⟩ := (hmem v).1 hv
      exact ⟨hk, cache_get st k, hget hne, hne⟩
    · rintro ⟨hk, v, hkv, hne⟩
      refine ⟨v, (hmem v).2 ⟨hk, ?_, hne⟩⟩
      simp [cache_get, hkv]
  · intro v hv
    obtain ⟨hk, rfl, hne⟩ := (hmem v).1 hv
    exact ⟨hget hne, hne⟩

/-- C6 witness: the amended theorem applied at a one-key store holding
`5` under `"a"`, whose membership hypothesis is discharged by
evaluation. -/
theorem C6_get_many_witness :
    ({ emptyStore with
        kv := fun k => if k = "a" then some (PyVal.pyInt 5) else none
      : Store }).kv "a" = some (PyVal.pyInt 5) ∧
    PyVal.pyInt 5 ≠ PyVal.pyNone :=
  (C6_get_many_present_non_none
    { emptyStore with
      kv := fun k => if k = "a" then some (PyVal.pyInt 5) else none }
    ["a"] "a").2 (PyVal.pyInt 5) (by decide)

/-- C7: the cache key is the lowercase-hex SHA-1 (`hash_key`) of the
string `KEY_PREFIX:module:name:arg1:arg2:…[:bucket_label]` — arguments
joined in declared parameter order excluding the timestamp and timezone
argument names, the bucket label appended as the final segment exactly
when a bucket rule is configured — and identical normalized call_args
always produce identical cache keys. -/
theorem C7_cache_key_is_hashed_spec_string (cfg : KeyCfg)
    (call_args : String → PyVal) :
    get_cache_key cfg call_args = hash_key (spec_key_string cfg call_args) ∧
    ∀ call_args2, call_args = call_args2 →
      get_cache_key cfg call_args = get_cache_key cfg call_args2 := by
  constructor
  · unfold get_cache_key spec_key_string
    cases cfg.bucket with
    | none => simp [joinColon, String.append_assoc]
    | some b => simp [joinColon, String.append_assoc]
  · intro call_args2 h
    rw [h]

/-- C7 witness: the theorem applied to the concrete registration
`exampleKeyCfg` with bound arguments `x = 7`, the purity hypothesis
discharged by `rfl`. -/
theorem C7_cache_key_witness :
    get_cache_key exampleKeyCfg intArgs =
      hash_key (spec_key_string exampleKeyCfg intArgs) ∧
    get_cache_key exampleKeyCfg intArgs =
      get_cache_key exampleKeyCfg intArgs :=
  ⟨(C7_cache_key_is_hashed_spec_string exampleKeyCfg intArgs).1,
   (C7_cache_key_is_hashed_spec_string exampleKeyCfg intArgs).2 intArgs rfl⟩

/-- Deleting keys never touches the sorted sets. -/
theorem delete_many_zset (st : Store) (keys : List String) :
    (delete_many st keys).zset = st.zset := by
  induction keys generalizing st with
  | nil => rfl
  | cons key rest ih =>
      unfold delete_many at ih ⊢
      rw [List.foldl_cons]
      exact ih _

/-- Deletion preserves absence. -/
theorem delete_many_kv_preserve_none (st : Store) (keys : List String)
    (k : String) (h : st.kv k = none) : (delete_many st keys).kv k = none := by
  induction keys generalizing st with
  | nil => exact h
  | cons key rest ih =>
      unfold delete_many at ih ⊢
      rw [List.foldl_cons]
      apply ih
      simp only []
      split
      · rfl
      · exact h

/-- Every deleted key is absent afterwards. -/
theorem delete_many_kv_none (st : Store) (keys : List String) (k : String)
    (hk : k ∈ keys) : (delete_many st keys).kv k = none := by
  induction keys generalizing st with
  | nil => cases hk
  | cons key rest ih =>
      unfold delete_many at ih ⊢
      rw [List.foldl_cons]
      rcases List.mem_cons.1 hk with rfl | hmem
      · apply delete_many_kv_preserve_none
        simp
      · exact ih _ hmem

/-- The full score range returns every member of the sorted set. -/
theorem zrangebyscore_full (st : Store) (ik : String) :
    zrangebyscore st ik Bound.ninf Bound.pinf = (st.zset ik).map Prod.fst := by
  unfold zrangebyscore
  simp [scoreGE, scoreLE]

/-- C8: for every index state, `clear_cache(before=+inf, after=−inf)`
leaves the computation's index with no members, and every cache key that
was listed in the index is absent from the store (the range fetch returns
all listed keys, they are deleted, then the index entries are removed). -/
theorem C8_clear_cache_clears (cfg : EngineCfg) (st : Store) :
    (clear_cache cfg st Bound.pinf Bound.ninf).zset (get_index_key cfg) =
      [] ∧
    ∀ k, k ∈ (st.zset (get_index_key cfg)).map Prod.fst →
      (clear_cache cfg st Bound.pinf Bound.ninf).kv k = none := by
  unfold clear_cache clear_index
  constructor
  · unfold zremrangebyscore
    simp only [if_pos rfl]
    rw [delete_many_zset]
    simp [scoreGE, scoreLE]
  · intro k hk
    show (delete_many st
      (zrangebyscore st (get_index_key cfg) Bound.ninf Bound.pinf)).kv k =
        none
    rw [zrangebyscore_full]
    exact delete_many_kv_none _ _ _ hk

/-- C8 witness: a store whose index lists one member holding a value; the
theorem applied there shows the member is gone from the store after the
clear, the membership hypothesis discharged by evaluation. -/
theorem C8_clear_cache_witness :
    (clear_cache exampleEngineCfg
      { emptyStore with
        kv := fun k => if k = "member1" then some (PyVal.pyInt 1) else none,
        zset := fun k =>
          if k = "cache_index:m:f" then [("member1", 50)] else [] }
      Bound.pinf Bound.ninf).kv "member1" = none :=
  (C8_clear_cache_clears exampleEngineCfg
    { emptyStore with
      kv := fun k => if k = "member1" then some (PyVal.pyInt 1) else none,
      zset := fun k =>
        if k = "cache_index:m:f" then [("member1", 50)] else [] }).2
    "member1" (by decide)

/-- C3: evaluated at a cache miss with `cache_ttl = 3600` on the empty
store, `run_and_cache` invokes the user computation, writes the triple
`{cache_key→value, updated_key→now, refresh_key→now+timeout_refresh}`
through the multi-set, updates the index, and returns the computed value —
but the written keys carry **no expiry**: `cache.set_many` accepts its
`timeout` argument and never forwards it to the store, so the claimed
`TTL = cache_ttl` is not applied. -/
theorem C3_run_and_cache_writes_without_ttl :
    (run_and_cache exampleRefreshCfg (fun _ => PyVal.pyInt 42) intArgs "ck"
      3600 emptyStore).1 = PyVal.pyInt 42 ∧
    (run_and_cache exampleRefreshCfg (fun _ => PyVal.pyInt 42) intArgs "ck"
      3600 emptyStore).2.kv "ck" = some (PyVal.pyInt 42) ∧
    (run_and_cache exampleRefreshCfg (fun _ => PyVal.pyInt 42) intArgs "ck"
      3600 emptyStore).2.kv "cache_updated_time:ck" =
        some (PyVal.pyDT 100) ∧
    (run_and_cache exampleRefreshCfg (fun _ => PyVal.pyInt 42) intArgs "ck"
      3600 emptyStore).2.kv "cache_refresh_time:ck" =
        some (PyVal.pyInt 130) ∧
    (run_and_cache exampleRefreshCfg (fun _ => PyVal.pyInt 42) intArgs "ck"
      3600 emptyStore).2.zset "cache_index:m:f" = [("ck", 100)] ∧
    (run_and_cache exampleRefreshCfg (fun _ => PyVal.pyInt 42) intArgs "ck"
      3600 emptyStore).2.ttl "ck" = none ∧
    (run_and_cache exampleRefreshCfg (fun _ => PyVal.pyInt 42) intArgs "ck"
      3600 emptyStore).2.ttl "cache_updated_time:ck" = none ∧
    (run_and_cache exampleRefreshCfg (fun _ => PyVal.pyInt 42) intArgs "ck"
      3600 emptyStore).2.ttl "cache_refresh_time:ck" = none := by
  refine ⟨?_, ?_, ?_, ?_, ?_, ?_, ?_, ?_⟩ <;> rfl

/-- `update_index` only touches the sorted set, never the scalar keys. -/
theorem update_index_kv (st : Store) (ck ik : String) (t now : Int) :
    (update_index st ck ik t now).kv = st.kv := by
  unfold update_index zadd zremrangebyscore
  split <;> rfl

/-- A multi-set leaves keys outside the written data untouched. -/
theorem set_many_kv_not_mem (st : Store) (data : List (String × PyVal))
    (t : Option Int) (k : String) (hk : ∀ p ∈ data, p.1 ≠ k) :
    (set_many st data t).kv k = st.kv k := by
  induction data generalizing st with
  | nil => rfl
  | cons p rest ih =>
      unfold set_many at ih ⊢
      rw [List.foldl_cons]
      rw [ih _ fun q hq => hk q (List.mem_cons_of_mem p hq)]
      simp only []
      rw [if_neg fun h => hk p (List.mem_cons_self p rest) h.symm]

/-- A multi-set whose first entry's key recurs nowhere later writes that
entry's value. -/
theorem set_many_kv_head (st : Store) (k0 : String) (v0 : PyVal)
    (rest : List (String × PyVal)) (t : Option Int)
    (hk : ∀ p ∈ rest, p.1 ≠ k0) :
    (set_many st ((k0, v0) :: rest) t).kv k0 = some v0 := by
  unfold set_many
  rw [List.foldl_cons]
  have := set_many_kv_not_mem
    { st with
      kv := fun k => if k = k0 then some v0 else st.kv k,
      ttl := fun k => if k = k0 then none else st.ttl k }
    rest t k0 hk
  unfold set_many at this
  rw [this]
  simp

/-- After `save_to_cache`, the cache key holds the computed output: the
auxiliary keys written alongside carry distinct (prefixed) names. -/
theorem save_to_cache_kv_self (cfg : EngineCfg) (st : Store) (out : PyVal)
    (ck : String) (ttl : Int) :
    (save_to_cache cfg st out ck ttl).kv ck = some out := by
  have hrest : ∀ p ∈ set_refresh_at cfg ck ++ set_updated_at cfg ck,
      p.1 ≠ ck := by
    intro p hp
    rcases List.mem_append.1 hp with h | h
    · revert h
      unfold set_refresh_at
      cases cfg.timeout_refresh with
      | none => intro h; cases h
      | some tr =>
          intro h
          rw [List.mem_singleton] at h
          rw [h]
          exact prefixed_key_ne _ _
    · rw [set_updated_at, List.mem_singleton] at h
      rw [h]
      exact prefixed_key_ne _ _
  show (update_index
    (set_many st ((ck, out) ::
      (set_refresh_at cfg ck ++ set_updated_at cfg ck)) (some ttl))
    ck (get_index_key cfg) ttl cfg.now_unix).kv ck = some out
  rw [update_index_kv]
  exact set_many_kv_head _ _ _ _ _ hrest

/-- C9: a registered computation whose result is `None` is never served
from the cache. The single-call path treats a `None` read as a miss, so
(a) on any store whose read of the cache key deserializes to `None` the
user computation runs in the foreground, and (b) immediately after a
successful compute-and-store of the `None` value the stored read is still
`None`, so the next invocation re-runs the computation again. -/
theorem C9_none_never_served (cfg : EngineCfg)
    (func : (String → PyVal) → PyVal) (call_args : String → PyVal)
    (cache_ttl : Int) (hf : func call_args = PyVal.pyNone) :
    (∀ st, cache_get st (get_cache_key cfg.key call_args) = PyVal.pyNone →
      (cached_func cfg func call_args false false cache_ttl st).computed =
        true) ∧
    (∀ st0,
      cache_get
        (run_and_cache cfg func call_args
          (get_cache_key cfg.key call_args) cache_ttl st0).2
        (get_cache_key cfg.key call_args) = PyVal.pyNone ∧
      (cached_func cfg func call_args false false cache_ttl
        (run_and_cache cfg func call_args
          (get_cache_key cfg.key call_args) cache_ttl st0).2).computed =
        true) := by
  have hafter : ∀ st0 : Store,
      cache_get
        (run_and_cache cfg func call_args
          (get_cache_key cfg.key call_args) cache_ttl st0).2
        (get_cache_key cfg.key call_args) = PyVal.pyNone := by
    intro st0
    show cache_get
      (save_to_cache cfg st0 (func call_args)
        (get_cache_key cfg.key call_args) cache_ttl)
      (get_cache_key cfg.key call_args) = PyVal.pyNone
    unfold cache_get
    rw [save_to_cache_kv_self, hf]
  have hmiss : ∀ st : Store,
      cache_get st (get_cache_key cfg.key call_args) = PyVal.pyNone →
      (cached_func cfg func call_args false false cache_ttl st).computed =
        true := by
    intro st h
    unfold cached_func
    rw [if_neg]
    intro hcontra
    exact hcontra.2 h
  exact ⟨hmiss, fun st0 => ⟨hafter st0, hmiss _ (hafter st0)⟩⟩

/-- C9 witness: the theorem applied to the concrete registration with a
computation constantly returning `None`, on the empty store; both
hypotheses are discharged by `rfl`. -/
theorem C9_none_never_served_witness :
    (cached_func exampleEngineCfg (fun _ => PyVal.pyNone) intArgs false
      false 3600 emptyStore).computed = true :=
  (C9_none_never_served exampleEngineCfg (fun _ => PyVal.pyNone) intArgs
    3600 rfl).1 emptyStore rfl

set_option maxRecDepth 100000 in
/-- C10: cache keys derive from `str()` renderings, so the distinct
arguments `7` (integer) and `"7"` (string) produce the same cache key, and
a call with the string argument is served the value cached by a prior call
with the integer argument (its own computation, which would return `99`,
never runs). -/
theorem C10_str_collision :
    PyVal.pyInt 7 ≠ PyVal.pyStr "7" ∧
    get_cache_key exampleKeyCfg intArgs =
      get_cache_key exampleKeyCfg strArgs ∧
    (cached_func exampleEngineCfg (fun _ => PyVal.pyInt 42) intArgs false
      false 3600 emptyStore).computed = true ∧
    (cached_func exampleEngineCfg (fun _ => PyVal.pyInt 42) intArgs false
      false 3600 emptyStore).result = PyVal.pyInt 42 ∧
    (cached_func exampleEngineCfg (fun _ => PyVal.pyInt 99) strArgs false
      false 3600
      (cached_func exampleEngineCfg (fun _ => PyVal.pyInt 42) intArgs false
        false 3600 emptyStore).store).computed = false ∧
    (cached_func exampleEngineCfg (fun _ => PyVal.pyInt 99) strArgs false
      false 3600
      (cached_func exampleEngineCfg (fun _ => PyVal.pyInt 42) intArgs false
        false 3600 emptyStore).store).result = PyVal.pyInt 42 := by
  decide

/-- `getLastD` of a nonempty list ignores the default. -/
theorem getLastD_irrel (hd : Int × Int) (tl : List (Int × Int))
    (d1 d2 : Int × Int) : (hd :: tl).getLastD d1 = (hd :: tl).getLastD d2 := by
  rw [List.getLastD_cons, List.getLastD_cons]

/-- Loop invariant of `find_bucket_ranges`: with fuel exceeding the
remaining distance, the emitted ranges start at `s`, end at or past
`end_dt`, and are contiguous at one-microsecond steps. -/
theorem bucket_ranges_go_spec (advance : Int → Int)
    (hadv : ∀ s, s < advance s) (end_dt : Int) :
    ∀ fuel s, (end_dt - s).toNat < fuel →
      bucket_ranges_go advance end_dt fuel s ≠ [] ∧
      (bucket_ranges_go advance end_dt fuel s).headD (0, 0) =
        (s, advance s - 1) ∧
      end_dt ≤
        ((bucket_ranges_go advance end_dt fuel s).getLastD (0, 0)).2 ∧
      chainB (bucket_ranges_go advance end_dt fuel s) = true := by
  intro fuel
  induction fuel with
  | zero => intro s h; omega
  | succ fuel ih =>
    intro s h
    simp only [bucket_ranges_go]
    by_cases hc : advance s - 1 < end_dt
    · rw [if_pos hc]
      have hfuel : (end_dt - advance s).toNat < fuel := by
        have := hadv s
        omega
      obtain ⟨hne, hhead, hlast, hchain⟩ := ih (advance s) hfuel
      rcases hrest : bucket_ranges_go advance end_dt fuel (advance s)
        with _ | ⟨hd, tl⟩
      · exact absurd hrest hne
      · rw [hrest] at hhead hlast hchain
        have hhd : hd = (advance s, advance (advance s) - 1) := hhead
        refine ⟨by simp, by simp, ?_, ?_⟩
        · rw [List.getLastD_cons]
          rw [getLastD_irrel hd tl (s, advance s - 1) (0, 0)]
          exact hlast
        · show chainB ((s, advance s - 1) :: hd :: tl) = true
          rw [hhd] at hchain ⊢
          show ((advance s == advance s - 1 + 1) &&
            chainB ((advance s, advance (advance s) - 1) :: tl)) = true
          rw [hchain, Bool.and_true, beq_iff_eq]
          omega
    · rw [if_neg hc]
      refine ⟨by simp, rfl, ?_, rfl⟩
      show end_dt ≤ advance s - 1
      omega

/-- C2: for every bucket rule and timezone — abstracted as the probe
result `find_start` (which locates a bucket start at or before its input)
and the strictly-advancing step `advance` — and all timestamps `a ≤ b`,
`find_bucket_ranges` returns a non-empty list `[(s₀,e₀),…,(sₙ,eₙ)]` with
`s₀ ≤ a`, `eₙ ≥ b`, and `sᵢ₊₁ = eᵢ + 1µs` for every consecutive pair. -/
theorem C2_find_bucket_ranges_cover (find_start advance : Int → Int)
    (a b : Int) (hadv : ∀ s, s < advance s) (hstart : find_start a ≤ a)
    (hab : a ≤ b) :
    ∃ r, find_bucket_ranges find_start advance a b = some r ∧
      r ≠ [] ∧ (r.headD (0, 0)).1 ≤ a ∧ b ≤ (r.getLastD (0, 0)).2 ∧
      chainB r = true := by
  unfold find_bucket_ranges
  rw [if_pos hab]
  obtain ⟨hne, hhead, hlast, hchain⟩ := bucket_ranges_go_spec advance hadv b
    ((b - find_start a).toNat + 1) (find_start a) (by omega)
  refine ⟨_, rfl, hne, ?_, hlast, hchain⟩
  rw [hhead]
  exact hstart

/-- C2 witness: the theorem applied to a ten-microsecond bucket rule
(`find_start` floors to a multiple of ten, `advance` adds ten) on
`[3, 25]`, all hypotheses discharged at the concrete input; the enumerated
ranges also evaluate to `[(0,9),(10,19),(20,29)]`. -/
theorem C2_find_bucket_ranges_witness :
    (∃ r, find_bucket_ranges (fun x => x - x % 10) (fun s => s + 10) 3 25 =
        some r ∧
      r ≠ [] ∧ (r.headD (0, 0)).1 ≤ 3 ∧ 25 ≤ (r.getLastD (0, 0)).2 ∧
      chainB r = true) ∧
    find_bucket_ranges (fun x => x - x % 10) (fun s => s + 10) 3 25 =
      some [(0, 9), (10, 19), (20, 29)] :=
  ⟨C2_find_bucket_ranges_cover (fun x => x - x % 10) (fun s => s + 10) 3 25
    (fun s => by show s < s + 10; omega) (by decide) (by decide),
   by decide⟩
